import Mathlib

/-!
# Verification of the `srv` wire-protocol library

A shallow embedding of the `srv` repository (a binary-framed RPC transport
in Go) together with proofs about its metadata codec, connection wrapper,
endpoint registry, accept-loop backoff and per-connection dispatcher.

Modelling conventions:
* Go byte slices and Go strings are modelled as `List Nat` whose elements are
  byte values (`< 256`).  Go's `for i, c := range s` iterates runes, not
  bytes: `i` is the byte offset of each rune start and `c` the decoded code
  point (U+FFFD for an invalid sequence, advancing one byte).  The string
  copy loops of `Encode` are therefore modelled by `goStrEnc`, which
  transcribes this rune iteration (with `byte(c)` truncation and zero gaps at
  continuation-byte offsets); for ASCII strings it coincides with the plain
  truncate-and-pad byte copy `padTrunc` (`goStrEnc_ascii`).
* Go `int64` values (`UserID`, `BodySize`, `time.Duration`) are modelled as
  `Int` together with explicit reduction modulo `2^64` at the points where the
  source converts through `uint64` or where `int64` arithmetic can wrap.
* Fallible operations return `Option`/pairs carrying an optional error; a Go
  panic (such as `make` with a negative length or writing to a nil map) is
  modelled as `Option.none` of the whole result.
-/

/-- Errors of the library, mirroring the `error` values that appear in the
source: `io.EOF`, `errConnectionClosed`, `errInvalidEndpoint`,
`errInvalidProtocol`, and `errors.Wrap msg cause` from github.com/pkg/errors
(which keeps the cause recoverable). -/
inductive GoErr : Type where
  | eof : GoErr
  | connectionClosed : GoErr
  | invalidEndpoint : GoErr
  | invalidProtocol : GoErr
  | wrap : String → GoErr → GoErr
  deriving DecidableEq, Repr

/-- Root cause of an error, unwrapping `errors.Wrap` layers (the behaviour of
`errors.Cause` in github.com/pkg/errors). -/
def GoErr.cause : GoErr → GoErr
  | .wrap _ e => e.cause
  | e => e

/-! ## Metadata codec (src/metadata.go)

Header layout (225 bytes): offset 0 endpoint type (1 byte), offset 1 user id
(8 bytes LE), offset 9 timeout in milliseconds (8 bytes LE), offset 17 body
size (8 bytes LE), offset 25 content type (100 bytes), offset 125 endpoint
name (100 bytes). -/

def headerSize : Nat := 225

def headerEndpointSize : Nat := 100

def headerContentTypeSize : Nat := 100

def EndpointRequest : Nat := 0

def EndpointStream : Nat := 1

/-- Model of `binary.LittleEndian.PutUint64`: the 8 little-endian bytes of `x`
(byte `i` is `byte(x >> (8*i))`). -/
def putUint64LE (x : Nat) : List Nat :=
  [x % 256, x / 256 % 256, x / 65536 % 256, x / 16777216 % 256,
   x / 4294967296 % 256, x / 1099511627776 % 256,
   x / 281474976710656 % 256, x / 72057594037927936 % 256]

/-- Model of `binary.LittleEndian.Uint64` over the first 8 bytes of the slice.
(The source only ever applies it to slices of length at least 8; on shorter
input the Go function would panic, here missing bytes read as 0.) -/
def getUint64LE (bs : List Nat) : Nat :=
  bs.getD 0 0 + 256 * bs.getD 1 0 + 65536 * bs.getD 2 0 +
    16777216 * bs.getD 3 0 + 4294967296 * bs.getD 4 0 +
    1099511627776 * bs.getD 5 0 + 281474976710656 * bs.getD 6 0 +
    72057594037927936 * bs.getD 7 0

/-- Go's `uint64(x)` conversion of an `int64` value: reduction modulo `2^64`
into `[0, 2^64)`. -/
def toUint64 (x : Int) : Nat :=
  (x % (18446744073709551616 : Int)).toNat

/-- Reinterpreting a `uint64` bit pattern as an `int64` (two's complement). -/
def toInt64 (u : Nat) : Int :=
  if u < 9223372036854775808 then (u : Int) else (u : Int) - 18446744073709551616

/-- Wrap-around of `int64` arithmetic: the result of an operation reduced to
the representable range `[-2^63, 2^63)`. -/
def wrapInt64 (x : Int) : Int :=
  toInt64 (toUint64 x)

/-- Go's `int64` division truncates toward zero; `m.Timeout / time.Millisecond`
in the source. -/
def goDivMs (t : Int) : Int :=
  Int.tdiv t 1000000

/-- Model of `strings.Trim(s, "\x00")`: removes leading and trailing NUL bytes. -/
def trimNul (l : List Nat) : List Nat :=
  ((l.dropWhile (fun b => b == 0)).reverse.dropWhile (fun b => b == 0)).reverse

/-- The truncate-and-NUL-pad form of a byte string: the first `n` bytes,
padded with NUL bytes to exactly `n` bytes.  For ASCII strings this is
exactly the field region the rune-iterating copy loops of `Encode` leave in
the buffer (`goStrEnc_ascii`); the decode-side lemmas are phrased over it. -/
def padTrunc (n : Nat) (s : List Nat) : List Nat :=
  s.take n ++ List.replicate (n - s.length) 0

/-- Accepted range (inclusive) of the second byte of a multi-byte UTF-8
sequence as a function of the lead byte: the acceptRanges table of Go's
unicode/utf8 (0xE0 excludes overlong 3-byte forms, 0xED excludes surrogates,
0xF0 excludes overlong 4-byte forms, 0xF4 caps at U+10FFFF). -/
def utf8Accept2 (b0 : Nat) : Nat × Nat :=
  if b0 = 224 then (160, 191)
  else if b0 = 237 then (128, 159)
  else if b0 = 240 then (144, 191)
  else if b0 = 244 then (128, 143)
  else (128, 191)

/-- One step of Go's range-over-string iteration at the head of the remaining
bytes: the byte the copy loop writes (`byte(c)`, the low 8 bits of the code
point) and the width by which the byte index advances.  Transcribes UTF-8
decoding as in Go's unicode/utf8: ASCII (width 1); 2-byte leads 0xC2..0xDF;
3-byte leads 0xE0..0xEF and 4-byte leads 0xF0..0xF4 with the `utf8Accept2`
second-byte ranges and 0x80..0xBF continuation bytes.  Every invalid or
truncated sequence yields U+FFFD (low byte 253) and advances a single byte,
as the Go language specification prescribes for range. -/
def goRuneStep (b0 : Nat) (rest : List Nat) : Nat × Nat :=
  if b0 < 128 then (b0, 1)
  else if 194 ≤ b0 ∧ b0 ≤ 223 then
    match rest with
    | b1 :: _ =>
      if (utf8Accept2 b0).1 ≤ b1 ∧ b1 ≤ (utf8Accept2 b0).2 then
        (((b0 - 192) * 64 + (b1 - 128)) % 256, 2)
      else (253, 1)
    | [] => (253, 1)
  else if 224 ≤ b0 ∧ b0 ≤ 239 then
    match rest with
    | b1 :: b2 :: _ =>
      if ((utf8Accept2 b0).1 ≤ b1 ∧ b1 ≤ (utf8Accept2 b0).2) ∧
          (128 ≤ b2 ∧ b2 ≤ 191) then
        (((b0 - 224) * 4096 + (b1 - 128) * 64 + (b2 - 128)) % 256, 3)
      else (253, 1)
    | _ => (253, 1)
  else if 240 ≤ b0 ∧ b0 ≤ 244 then
    match rest with
    | b1 :: b2 :: b3 :: _ =>
      if ((utf8Accept2 b0).1 ≤ b1 ∧ b1 ≤ (utf8Accept2 b0).2) ∧
          (128 ≤ b2 ∧ b2 ≤ 191) ∧ (128 ≤ b3 ∧ b3 ≤ 191) then
        (((b0 - 240) * 262144 + (b1 - 128) * 4096 + (b2 - 128) * 64 +
            (b3 - 128)) % 256, 4)
      else (253, 1)
    | _ => (253, 1)
  else (253, 1)

/-- The `n`-byte field region that the copy loop `for i, c := range s
{ if i >= n { break }; b[i+off] = byte(c) }` leaves in a zero-initialised
buffer: at each rune start the low byte of the code point is written, the
positions covered by the remainder of a multi-byte rune keep their zero, and
the loop stops at the first rune start at or beyond `n` (a rune starting just
inside the region still writes its byte even if its width crosses the end).
The flat list patterns only distinguish how many bytes remain, which bounds
the widths `goRuneStep` can return there; the recursion drops exactly the
width of the rune. -/
def goStrEnc : Nat → List Nat → List Nat
  | 0, _ => []
  | left + 1, [] => List.replicate (left + 1) 0
  | left + 1, [b0] =>
    (goRuneStep b0 []).1 :: goStrEnc left []
  | left + 1, [b0, b1] =>
    if (goRuneStep b0 [b1]).2 = 2 then
      (goRuneStep b0 [b1]).1 ::
        (List.replicate (min 1 left) 0 ++ goStrEnc (left - 1) [])
    else
      (goRuneStep b0 [b1]).1 :: goStrEnc left [b1]
  | left + 1, [b0, b1, b2] =>
    if (goRuneStep b0 [b1, b2]).2 = 2 then
      (goRuneStep b0 [b1, b2]).1 ::
        (List.replicate (min 1 left) 0 ++ goStrEnc (left - 1) [b2])
    else if (goRuneStep b0 [b1, b2]).2 = 3 then
      (goRuneStep b0 [b1, b2]).1 ::
        (List.replicate (min 2 left) 0 ++ goStrEnc (left - 2) [])
    else
      (goRuneStep b0 [b1, b2]).1 :: goStrEnc left [b1, b2]
  | left + 1, b0 :: b1 :: b2 :: b3 :: rest4 =>
    if (goRuneStep b0 (b1 :: b2 :: b3 :: rest4)).2 = 2 then
      (goRuneStep b0 (b1 :: b2 :: b3 :: rest4)).1 ::
        (List.replicate (min 1 left) 0 ++
          goStrEnc (left - 1) (b2 :: b3 :: rest4))
    else if (goRuneStep b0 (b1 :: b2 :: b3 :: rest4)).2 = 3 then
      (goRuneStep b0 (b1 :: b2 :: b3 :: rest4)).1 ::
        (List.replicate (min 2 left) 0 ++ goStrEnc (left - 2) (b3 :: rest4))
    else if (goRuneStep b0 (b1 :: b2 :: b3 :: rest4)).2 = 4 then
      (goRuneStep b0 (b1 :: b2 :: b3 :: rest4)).1 ::
        (List.replicate (min 3 left) 0 ++ goStrEnc (left - 3) rest4)
    else
      (goRuneStep b0 (b1 :: b2 :: b3 :: rest4)).1 ::
        goStrEnc left (b1 :: b2 :: b3 :: rest4)

/-- Model of `Metadata` (src/metadata.go): the header metadata of a request. -/
structure Metadata where
  /-- Model of `EndpointType byte` -/
  endpointType : Nat := 0
  /-- Model of `UserID int64` -/
  userID : Int := 0
  /-- Model of `BodySize int64` -/
  bodySize : Int := 0
  /-- Model of `Timeout time.Duration` (int64 nanoseconds) -/
  timeout : Int := 0
  /-- Model of `Endpoint string` (byte sequence) -/
  endpoint : List Nat := []
  /-- Model of `ContentType string` (byte sequence) -/
  contentType : List Nat := []
  deriving DecidableEq, Repr

/-- The zero `Metadata{}` value. -/
def Metadata.zero : Metadata := {}

/-- Model of `Metadata.Encode` (src/metadata.go lines 53-90): the 225-byte header.
Offsets: `b[0]` endpoint type, `b[1:9]` user id, `b[9:17]` timeout in
milliseconds, `b[17:25]` body size, `b[25:125]` content type, `b[125:225]`
endpoint name.  The two string regions are produced by the rune-iterating
copy loops, modelled by `goStrEnc`. -/
def Metadata.Encode (m : Metadata) : List Nat :=
  m.endpointType :: (putUint64LE (toUint64 m.userID) ++
    putUint64LE (toUint64 (goDivMs m.timeout)) ++
    putUint64LE (toUint64 m.bodySize) ++
    goStrEnc headerContentTypeSize m.contentType ++
    goStrEnc headerEndpointSize m.endpoint)

/-- Model of `DecodeMetadata` (src/metadata.go lines 93-107).  Returns `none` exactly
where the source returns `io.EOF` (buffer shorter than the header size);
otherwise unpacks every field.  The timeout is
`time.Millisecond * time.Duration(u)`: an `int64` product that wraps. -/
def DecodeMetadata (bs : List Nat) : Option Metadata :=
  if bs.length < headerSize then none
  else some
    { endpointType := bs.getD 0 0
      userID := toInt64 (getUint64LE (bs.drop 1))
      timeout := wrapInt64 (1000000 * toInt64 (getUint64LE (bs.drop 9)))
      bodySize := toInt64 (getUint64LE (bs.drop 17))
      contentType := trimNul ((bs.drop 25).take headerContentTypeSize)
      endpoint := trimNul ((bs.drop 125).take headerEndpointSize) }

set_option maxRecDepth 4096

example : Int.tdiv (-7) 2 = -3 := by decide

example : goDivMs 5000000 = 5 := by decide

def mScratch : Metadata :=
  { endpointType := 1
    userID := 123
    bodySize := 789
    timeout := 456000000
    endpoint := [102, 111, 111]
    contentType := [116, 101, 120, 116] }

example : DecodeMetadata (Metadata.Encode mScratch) = some mScratch := by decide

example : (Metadata.Encode {}).length = 225 := by decide

def mScratch2 : Metadata := { endpoint := [97, 0] }

example : DecodeMetadata (Metadata.Encode mScratch2) = some { endpoint := [97] } := by decide

def mScratch3 : Metadata := { endpoint := [195, 169] }

example : (Metadata.Encode mScratch3).drop 125 = 233 :: List.replicate 99 0 := by decide

example : DecodeMetadata (Metadata.Encode mScratch3) = some { endpoint := [233] } := by decide

example : goStrEnc 4 [195, 169, 97] = [233, 0, 97, 0] := by decide

example : goStrEnc 1 [195, 169, 97] = [233] := by decide

example : goStrEnc 3 [169] = [253, 0, 0] := by decide

example : goStrEnc 6 [240, 159, 152, 128, 98] = [0, 0, 0, 0, 98, 0] := by decide

example : goStrEnc 4 [237, 160, 128] = [253, 253, 253, 0] := by decide

/-! ## Codec lemmas -/

theorem length_putUint64LE (x : Nat) : (putUint64LE x).length = 8 := rfl

theorem length_padTrunc (n : Nat) (s : List Nat) : (padTrunc n s).length = n := by
  simp only [padTrunc, List.length_append, List.length_take, List.length_replicate]
  omega

theorem goStrEnc_zero (s : List Nat) : goStrEnc 0 s = [] := by
  cases s with
  | nil => rfl
  | cons b0 r =>
    rcases r with - | ⟨b1, - | ⟨b2, - | ⟨b3, r4⟩⟩⟩ <;> simp [goStrEnc]

theorem goRuneStep_ascii (b : Nat) (rest : List Nat) (h : b < 128) :
    goRuneStep b rest = (b, 1) := by
  unfold goRuneStep
  rw [if_pos h]

theorem goStrEnc_cons_ascii (n b : Nat) (r : List Nat) (h : b < 128) :
    goStrEnc (n + 1) (b :: r) = b :: goStrEnc n r := by
  rcases r with - | ⟨b1, - | ⟨b2, - | ⟨b3, r4⟩⟩⟩ <;>
    simp [goStrEnc, goRuneStep_ascii b _ h]

theorem length_goStrEnc (left : Nat) (s : List Nat) :
    (goStrEnc left s).length = left := by
  induction left, s using goStrEnc.induct <;>
    · simp_all [goStrEnc]
      try omega

theorem goStrEnc_ascii (left : Nat) (s : List Nat) (h : ∀ b ∈ s, b < 128) :
    goStrEnc left s = padTrunc left s := by
  induction s generalizing left with
  | nil =>
    cases left with
    | zero => simp [goStrEnc_zero, padTrunc]
    | succ l => simp [goStrEnc, padTrunc]
  | cons b rest ih =>
    cases left with
    | zero => simp [goStrEnc_zero, padTrunc]
    | succ l =>
      rw [goStrEnc_cons_ascii l b rest (h b (List.mem_cons_self b rest))]
      rw [ih l (fun x hx => h x (List.mem_cons_of_mem b hx))]
      simp only [padTrunc, List.take_succ_cons, List.length_cons,
        List.cons_append]
      rw [Nat.succ_sub_succ]

theorem getUint64LE_putUint64LE_append (x : Nat) (r : List Nat) :
    getUint64LE (putUint64LE x ++ r) = x % 18446744073709551616 := by
  simp only [putUint64LE, getUint64LE, List.cons_append, List.nil_append,
    List.getD_cons_zero, List.getD_cons_succ]
  omega

theorem toUint64_lt (x : Int) : toUint64 x < 18446744073709551616 := by
  simp only [toUint64]
  omega

theorem toInt64_toUint64 (x : Int) (h₁ : -9223372036854775808 ≤ x)
    (h₂ : x < 9223372036854775808) : toInt64 (toUint64 x) = x := by
  simp only [toInt64, toUint64]
  split <;> omega

theorem wrapInt64_eq_self (x : Int) (h₁ : -9223372036854775808 ≤ x)
    (h₂ : x < 9223372036854775808) : wrapInt64 x = x := by
  simp only [wrapInt64]
  exact toInt64_toUint64 x h₁ h₂

theorem dropWhile_replicate_append (p : Nat → Bool) (a : Nat) (hp : p a = true) :
    ∀ (k : Nat) (l : List Nat),
      (List.replicate k a ++ l).dropWhile p = l.dropWhile p := by
  intro k
  induction k with
  | zero => intro l; rfl
  | succ n ih =>
    intro l
    simp only [List.replicate_succ, List.cons_append, List.dropWhile_cons, hp]
    exact ih l

theorem dropWhile_beq_zero_eq_self (l : List Nat) (h : l.head? ≠ some 0) :
    l.dropWhile (fun b => b == 0) = l := by
  cases l with
  | nil => rfl
  | cons a t =>
    simp only [List.head?_cons, ne_eq, Option.some.injEq] at h
    simp only [List.dropWhile_cons]
    have : (a == 0) = false := by simpa using h
    simp [this]

theorem trimNul_append_replicate (s : List Nat) (k : Nat)
    (h0 : s.head? ≠ some 0) (h1 : s.getLast? ≠ some 0) :
    trimNul (s ++ List.replicate k 0) = s := by
  cases s with
  | nil =>
    have hz : (List.replicate k 0).dropWhile (fun b => b == 0) = [] := by
      have h := dropWhile_replicate_append (fun b => b == 0) 0 rfl k ([] : List Nat)
      simp only [List.append_nil, List.dropWhile_nil] at h
      exact h
    simp [trimNul, hz]
  | cons a t =>
    have h2 : ((a :: t) ++ List.replicate k 0).dropWhile (fun b => b == 0) =
        (a :: t) ++ List.replicate k 0 :=
      dropWhile_beq_zero_eq_self _ (by simpa using h0)
    have h3 : ((a :: t).reverse).dropWhile (fun b => b == 0) = (a :: t).reverse :=
      dropWhile_beq_zero_eq_self _ (by rw [List.head?_reverse]; exact h1)
    simp only [trimNul]
    rw [h2, List.reverse_append, List.reverse_replicate,
      dropWhile_replicate_append (fun b => b == 0) 0 rfl k ((a :: t).reverse),
      h3, List.reverse_reverse]

theorem trimNul_padTrunc (n : Nat) (s : List Nat) (hn : s.length ≤ n)
    (h0 : s.head? ≠ some 0) (h1 : s.getLast? ≠ some 0) :
    trimNul (padTrunc n s) = s := by
  unfold padTrunc
  rw [List.take_of_length_le hn]
  exact trimNul_append_replicate s (n - s.length) h0 h1

theorem goDivMs_mul_cancel (t : Int) (h : (1000000 : Int) ∣ t) :
    1000000 * goDivMs t = t := by
  obtain ⟨k, rfl⟩ := h
  simp only [goDivMs]
  rw [Int.mul_tdiv_cancel_left k (by norm_num)]

theorem length_Encode (m : Metadata) : m.Encode.length = headerSize := by
  simp only [Metadata.Encode, List.length_cons, List.length_append,
    length_putUint64LE, length_goStrEnc, headerSize, headerContentTypeSize,
    headerEndpointSize]

theorem Encode_drop_1 (m : Metadata) :
    m.Encode.drop 1 = putUint64LE (toUint64 m.userID) ++
      (putUint64LE (toUint64 (goDivMs m.timeout)) ++
        (putUint64LE (toUint64 m.bodySize) ++
          (goStrEnc headerContentTypeSize m.contentType ++
            goStrEnc headerEndpointSize m.endpoint))) := by
  simp [Metadata.Encode, List.append_assoc]

theorem Encode_drop_9 (m : Metadata) :
    m.Encode.drop 9 = putUint64LE (toUint64 (goDivMs m.timeout)) ++
      (putUint64LE (toUint64 m.bodySize) ++
        (goStrEnc headerContentTypeSize m.contentType ++
          goStrEnc headerEndpointSize m.endpoint)) := by
  have h : m.Encode.drop 9 = (m.Encode.drop 1).drop 8 := by
    rw [List.drop_drop]
  rw [h, Encode_drop_1, List.drop_left' (length_putUint64LE _)]

theorem Encode_drop_17 (m : Metadata) :
    m.Encode.drop 17 = putUint64LE (toUint64 m.bodySize) ++
      (goStrEnc headerContentTypeSize m.contentType ++
        goStrEnc headerEndpointSize m.endpoint) := by
  have h : m.Encode.drop 17 = (m.Encode.drop 9).drop 8 := by
    rw [List.drop_drop]
  rw [h, Encode_drop_9, List.drop_left' (length_putUint64LE _)]

theorem Encode_drop_25 (m : Metadata) :
    m.Encode.drop 25 = goStrEnc headerContentTypeSize m.contentType ++
      goStrEnc headerEndpointSize m.endpoint := by
  have h : m.Encode.drop 25 = (m.Encode.drop 17).drop 8 := by
    rw [List.drop_drop]
  rw [h, Encode_drop_17, List.drop_left' (length_putUint64LE _)]

theorem Encode_drop_125 (m : Metadata) :
    m.Encode.drop 125 = goStrEnc headerEndpointSize m.endpoint := by
  have h : m.Encode.drop 125 = (m.Encode.drop 25).drop 100 := by
    rw [List.drop_drop]
  rw [h, Encode_drop_25, List.drop_left' (by rw [length_goStrEnc]; rfl)]

theorem Encode_getD_0 (m : Metadata) : m.Encode.getD 0 0 = m.endpointType := rfl

theorem getUint64LE_toUint64_append (x : Int) (r : List Nat) :
    getUint64LE (putUint64LE (toUint64 x) ++ r) = toUint64 x := by
  rw [getUint64LE_putUint64LE_append]
  exact Nat.mod_eq_of_lt (toUint64_lt x)

/-! ## Claim C1: metadata round-trip -/

/-- C1 counterexample input: a metadata value satisfying every hypothesis of
the claim (fields in range, timeout a whole number of milliseconds, strings
within their field widths) whose endpoint string ends in a NUL byte. -/
def mC1cex : Metadata := { endpoint := [97, 0] }

/-- C1 counterexample: the claim as stated is false.  `mC1cex` has
`user_id = body_size = 0`, `timeout = 0` (a whole number of milliseconds) and
strings of length at most the field widths, yet decoding its encoding does not
give it back: `strings.Trim(s, "\x00")` on decode removes the trailing NUL
byte of the endpoint name ("a\x00" comes back as "a"). -/
theorem c1_roundtrip_cex :
    DecodeMetadata (Metadata.Encode mC1cex) ≠ some mC1cex := by decide

/-- C1 (amended): decode(encode(m)) = m for every metadata whose
`user_id`, `body_size` and `timeout` lie in the signed 64-bit range, whose
timeout is a whole number of milliseconds, whose `endpoint`/`content_type`
byte strings are no longer than their field widths and consist of ASCII
bytes (below 0x80 — the rune-iterating copy loop of `Encode` rewrites
non-ASCII bytes, so a string such as "é" does not round-trip), and — forced
by the counterexample — whose string fields neither begin nor end with a NUL
byte (decode trims NUL bytes from both ends of the fixed-width regions). -/
theorem c1_roundtrip (m : Metadata)
    (hu₁ : -9223372036854775808 ≤ m.userID) (hu₂ : m.userID < 9223372036854775808)
    (hb₁ : -9223372036854775808 ≤ m.bodySize) (hb₂ : m.bodySize < 9223372036854775808)
    (ht₁ : -9223372036854775808 ≤ m.timeout) (ht₂ : m.timeout < 9223372036854775808)
    (htm : (1000000 : Int) ∣ m.timeout)
    (hct : m.contentType.length ≤ headerContentTypeSize)
    (hep : m.endpoint.length ≤ headerEndpointSize)
    (hctb : ∀ b ∈ m.contentType, b < 128) (hepb : ∀ b ∈ m.endpoint, b < 128)
    (hct0 : m.contentType.head? ≠ some 0) (hct1 : m.contentType.getLast? ≠ some 0)
    (hep0 : m.endpoint.head? ≠ some 0) (hep1 : m.endpoint.getLast? ≠ some 0) :
    DecodeMetadata (Metadata.Encode m) = some m := by
  obtain ⟨k, hk⟩ := htm
  have hdiv : goDivMs m.timeout = k := by
    rw [hk, goDivMs]
    exact Int.mul_tdiv_cancel_left k (by norm_num)
  have hk₁ : -9223372036854775808 ≤ goDivMs m.timeout := by rw [hdiv]; omega
  have hk₂ : goDivMs m.timeout < 9223372036854775808 := by rw [hdiv]; omega
  have e2 : toInt64 (getUint64LE (m.Encode.drop 1)) = m.userID := by
    rw [Encode_drop_1, getUint64LE_toUint64_append, toInt64_toUint64 _ hu₁ hu₂]
  have e3 : wrapInt64 (1000000 * toInt64 (getUint64LE (m.Encode.drop 9))) =
      m.timeout := by
    rw [Encode_drop_9, getUint64LE_toUint64_append, toInt64_toUint64 _ hk₁ hk₂,
      hdiv, ← hk, wrapInt64_eq_self _ ht₁ ht₂]
  have e4 : toInt64 (getUint64LE (m.Encode.drop 17)) = m.bodySize := by
    rw [Encode_drop_17, getUint64LE_toUint64_append, toInt64_toUint64 _ hb₁ hb₂]
  have e5 : trimNul ((m.Encode.drop 25).take headerContentTypeSize) =
      m.contentType := by
    rw [Encode_drop_25, List.take_left' (length_goStrEnc _ _),
      goStrEnc_ascii _ _ hctb, trimNul_padTrunc _ _ hct hct0 hct1]
  have e6 : trimNul ((m.Encode.drop 125).take headerEndpointSize) =
      m.endpoint := by
    rw [Encode_drop_125, goStrEnc_ascii _ _ hepb,
      List.take_of_length_le (le_of_eq (length_padTrunc _ _)),
      trimNul_padTrunc _ _ hep hep0 hep1]
  unfold DecodeMetadata
  rw [if_neg (by rw [length_Encode]; omega)]
  rw [e2, e3, e4, e5, e6, Encode_getD_0]

/-- C1 witness input. -/
def mC1wit : Metadata :=
  { endpointType := 1
    userID := -5
    bodySize := 3
    timeout := 2000000
    endpoint := [101, 99, 104, 111]
    contentType := [116] }

/-- C1 witness: the amended round-trip at a concrete metadata value. -/
theorem c1_roundtrip_witness :
    DecodeMetadata (Metadata.Encode mC1wit) = some mC1wit :=
  c1_roundtrip mC1wit (by decide) (by decide) (by decide) (by decide)
    (by decide) (by decide) ⟨2, by decide⟩ (by decide) (by decide)
    (by decide) (by decide) (by decide) (by decide) (by decide) (by decide)

/-! ## Claims C7 and C8: truncation and decode failure -/

theorem padTrunc_of_le (n : Nat) (s : List Nat) (h : n ≤ s.length) :
    padTrunc n s = s.take n := by
  unfold padTrunc
  rw [Nat.sub_eq_zero_of_le h]
  simp

theorem trimNul_eq_self (s : List Nat) (h0 : s.head? ≠ some 0)
    (h1 : s.getLast? ≠ some 0) : trimNul s = s := by
  have h := trimNul_append_replicate s 0 h0 h1
  simpa using h

theorem decode_Encode_endpoint (m : Metadata) :
    (DecodeMetadata m.Encode).map Metadata.endpoint =
      some (trimNul ((m.Encode.drop 125).take headerEndpointSize)) := by
  unfold DecodeMetadata
  rw [if_neg (by rw [length_Encode]; omega)]
  rfl

theorem decode_Encode_contentType (m : Metadata) :
    (DecodeMetadata m.Encode).map Metadata.contentType =
      some (trimNul ((m.Encode.drop 25).take headerContentTypeSize)) := by
  unfold DecodeMetadata
  rw [if_neg (by rw [length_Encode]; omega)]
  rfl

/-- C7 counterexample input: an endpoint name of 101 bytes whose first byte is
NUL. -/
def mC7cex : Metadata := { endpoint := 0 :: List.replicate 100 97 }

/-- C7 counterexample: the claim as stated is false.  For a 101-byte endpoint
name beginning with a NUL byte, the encoded region is the first 100 bytes of
the string, but decoding does not return exactly those 100 bytes:
`strings.Trim` removes the leading NUL, so 99 bytes come back. -/
theorem c7_truncation_cex :
    (DecodeMetadata (Metadata.Encode mC7cex)).map Metadata.endpoint ≠
      some (mC7cex.endpoint.take headerEndpointSize) := by decide

/-- C7 (amended): for an ASCII string field (bytes below 0x80 — the
rune-iterating copy loop of `Encode` rewrites non-ASCII bytes, so the claim's
"first N bytes of the string" only holds for single-byte runes) longer than
its fixed width N, the encoded header's corresponding byte region equals the
first N bytes of the string, for both the endpoint-name and content-type
fields; decoding that header yields exactly the truncated string provided —
forced by the counterexample — the truncated prefix neither begins nor ends
with a NUL byte. -/
theorem c7_truncation (m : Metadata) :
    (headerEndpointSize < m.endpoint.length →
      (∀ b ∈ m.endpoint, b < 128) →
      m.Encode.drop 125 = m.endpoint.take headerEndpointSize ∧
        ((m.endpoint.take headerEndpointSize).head? ≠ some 0 →
          (m.endpoint.take headerEndpointSize).getLast? ≠ some 0 →
          (DecodeMetadata m.Encode).map Metadata.endpoint =
            some (m.endpoint.take headerEndpointSize))) ∧
    (headerContentTypeSize < m.contentType.length →
      (∀ b ∈ m.contentType, b < 128) →
      (m.Encode.drop 25).take headerContentTypeSize =
          m.contentType.take headerContentTypeSize ∧
        ((m.contentType.take headerContentTypeSize).head? ≠ some 0 →
          (m.contentType.take headerContentTypeSize).getLast? ≠ some 0 →
          (DecodeMetadata m.Encode).map Metadata.contentType =
            some (m.contentType.take headerContentTypeSize))) := by
  constructor
  · intro hlen hepb
    have hreg : m.Encode.drop 125 = m.endpoint.take headerEndpointSize := by
      rw [Encode_drop_125, goStrEnc_ascii _ _ hepb,
        padTrunc_of_le _ _ (le_of_lt hlen)]
    refine ⟨hreg, fun h0 h1 => ?_⟩
    rw [decode_Encode_endpoint, hreg,
      List.take_of_length_le (by simp), trimNul_eq_self _ h0 h1]
  · intro hlen hctb
    have hreg : (m.Encode.drop 25).take headerContentTypeSize =
        m.contentType.take headerContentTypeSize := by
      rw [Encode_drop_25, List.take_left' (length_goStrEnc _ _),
        goStrEnc_ascii _ _ hctb, padTrunc_of_le _ _ (le_of_lt hlen)]
    refine ⟨hreg, fun h0 h1 => ?_⟩
    rw [decode_Encode_contentType, hreg, trimNul_eq_self _ h0 h1]

/-- C7 witness input: a 101-byte endpoint name and a 102-byte content type,
both all-'a'. -/
def mC7wit : Metadata :=
  { endpoint := List.replicate 101 97, contentType := List.replicate 102 97 }

/-- C7 witness: the amended truncation property at a concrete metadata
value. -/
theorem c7_truncation_witness :
    mC7wit.Encode.drop 125 = mC7wit.endpoint.take headerEndpointSize ∧
      (DecodeMetadata mC7wit.Encode).map Metadata.endpoint =
        some (mC7wit.endpoint.take headerEndpointSize) ∧
      (DecodeMetadata mC7wit.Encode).map Metadata.contentType =
        some (mC7wit.contentType.take headerContentTypeSize) :=
  ⟨((c7_truncation mC7wit).1 (by decide) (by decide)).1,
    ((c7_truncation mC7wit).1 (by decide) (by decide)).2 (by decide) (by decide),
    ((c7_truncation mC7wit).2 (by decide) (by decide)).2 (by decide) (by decide)⟩

/-- C8 (confirmed): `DecodeMetadata` fails (with the `io.EOF` /
IncompleteHeader error, modelled as `none`) exactly when the buffer holds
fewer than `headerSize` bytes; on any buffer of at least `headerSize` bytes it
succeeds, deterministically, whatever the field contents — in particular for
`endpoint_type` byte values outside `{EndpointRequest, EndpointStream}`. -/
theorem c8_decode_incomplete (bs : List Nat) :
    DecodeMetadata bs = none ↔ bs.length < headerSize := by
  unfold DecodeMetadata
  split <;> simp_all

/-! ## Connection wrapper (src/unnamed/part_000: `Client`)

The underlying `net.Conn` is modelled as a deterministic byte stream: a list
of incoming bytes, a list of bytes written so far, and the last deadline set.
`Conn.read` has the standard Go `io.Reader` semantics over a finite stream
(as exhibited by `bytes.Buffer`/`bytes.Reader`): it returns up to `n` of the
available bytes with a nil error, and `io.EOF` only when no bytes are
available; absolute deadline instants are abstracted to their `Int` value. -/

structure Conn where
  readStream : List Nat
  written : List Nat
  deadline : Option Int
  deriving DecidableEq, Repr

/-- Model of `conn.Read(b)` with `len(b) = n`: bytes read, error, new connection
state. -/
def Conn.read (c : Conn) (n : Nat) : List Nat × Option GoErr × Conn :=
  if n = 0 then ([], none, c)
  else if c.readStream.isEmpty then ([], some .eof, c)
  else (c.readStream.take n, none, { c with readStream := c.readStream.drop n })

/-- Model of `conn.Write(b)`: returns `len(b)` and appends to the written bytes. -/
def Conn.write (c : Conn) (bs : List Nat) : Nat × Option GoErr × Conn :=
  (bs.length, none, { c with written := c.written ++ bs })

/-- Model of `conn.SetDeadline(t)`. -/
def Conn.setDeadline (c : Conn) (t : Int) : Option GoErr × Conn :=
  (none, { c with deadline := some t })

/-- Model of `Client` (src/unnamed/part_000): wraps a `net.Conn` with a closed flag.
The `protocol`/`uri` fields of the source are connection metadata that no
claimed behaviour depends on; they are carried for `NewClient` only. -/
structure Client where
  conn : Conn
  closed : Bool := false
  deriving DecidableEq, Repr

/-- Model of `NewClientConn(conn)`. -/
def NewClientConn (conn : Conn) : Client := { conn := conn }

/-- Model of `Client.Write` (lines 62-67): fails immediately on a closed connection,
otherwise defers to the underlying conn. -/
def Client.Write (c : Client) (bs : List Nat) : Nat × Option GoErr × Client :=
  if c.closed then (0, some .connectionClosed, c)
  else
    let r := c.conn.write bs
    (r.1, r.2.1, { c with conn := r.2.2 })

/-- Model of `Client.WriteMeta` (lines 70-75). -/
def Client.WriteMeta (c : Client) (meta : Metadata) : Nat × Option GoErr × Client :=
  if c.closed then (0, some .connectionClosed, c)
  else c.Write meta.Encode

/-- Model of `Client.WriteData` (lines 79-87): header with `BodySize = len(body)` and
the endpoint name, then header and body written as one `Write`. -/
def Client.WriteData (c : Client) (endpoint : List Nat) (body : List Nat) :
    Nat × Option GoErr × Client :=
  if c.closed then (0, some .connectionClosed, c)
  else
    c.Write ((Metadata.Encode { bodySize := (body.length : Int), endpoint := endpoint }) ++ body)

/-- Model of `Client.WriteDataReader` (lines 96-109): drains the source into a buffer
(the model's source is a pure byte list, so `io.Copy` always succeeds), then
writes header plus buffered body. -/
def Client.WriteDataReader (c : Client) (endpoint : List Nat) (src : List Nat) :
    Nat × Option GoErr × Client :=
  if c.closed then (0, some .connectionClosed, c)
  else
    c.Write ((Metadata.Encode { bodySize := (src.length : Int), endpoint := endpoint }) ++ src)

/-- Model of `Client.Read` (lines 116-121). -/
def Client.Read (c : Client) (n : Nat) : List Nat × Option GoErr × Client :=
  if c.closed then ([], some .connectionClosed, c)
  else
    let r := c.conn.read n
    (r.1, r.2.1, { c with conn := r.2.2 })

/-- Model of `Client.ReadMeta` (lines 125-140): reads into a zero-initialised
`headerSize` buffer (a partial read leaves the tail zeroed), then decodes.
A decode failure of `io.EOF` is passed through; other decode errors would be
wrapped (the decoder produces no other error). -/
def Client.ReadMeta (c : Client) : Except GoErr Metadata × Client :=
  let r := c.Read headerSize
  match r.2.1 with
  | some e => (.error e, r.2.2)
  | none =>
    match DecodeMetadata (r.1 ++ List.replicate (headerSize - r.1.length) 0) with
    | none => (.error .eof, r.2.2)
    | some m => (.ok m, r.2.2)

/-- Model of `Client.ReadBody` (lines 145-157): `body = make([]byte, meta.BodySize)`
panics for a negative size (modelled as `none`); then a single `Read` into the
body buffer; `io.EOF` is passed through, other read errors are wrapped. -/
def Client.ReadBody (c : Client) (meta : Metadata) :
    Option (List Nat × Option GoErr × Client) :=
  if meta.bodySize < 0 then none
  else
    let n := meta.bodySize.toNat
    let r := c.Read n
    let body := r.1 ++ List.replicate (n - r.1.length) 0
    match r.2.1 with
    | some .eof => some (body, some .eof, r.2.2)
    | none => some (body, none, r.2.2)
    | some e => some (body, some (.wrap "could not read body" e), r.2.2)

/-- Model of `Client.ReadData` (lines 161-169): `ReadMeta` then `ReadBody`,
short-circuiting on the first failure. -/
def Client.ReadData (c : Client) :
    Option ((Metadata × List Nat × Option GoErr) × Client) :=
  let r := c.ReadMeta
  match r.1 with
  | .error e => some ((Metadata.zero, [], some e), r.2)
  | .ok m =>
    match r.2.ReadBody m with
    | none => none
    | some b => some ((m, b.1, b.2.1), b.2.2)

/-- Model of `Client.Close` (lines 179-182): sets the closed flag and closes the
underlying conn. -/
def Client.Close (c : Client) : Option GoErr × Client :=
  (none, { c with closed := true })

/-- Model of `Client.SetDeadline` (lines 186-190): defers to the underlying conn
directly — note the absence of a closed-flag check in the source. -/
def Client.SetDeadline (c : Client) (t : Int) : Option GoErr × Client :=
  let r := c.conn.setDeadline t
  (r.1, { c with conn := r.2 })

/-! ## Claim C3: read_body and short streams (code bug) -/

def c3conn : Conn := { readStream := [1, 2], written := [], deadline := none }

def c3client : Client := NewClientConn c3conn

def c3meta : Metadata := { bodySize := 5 }

/-- C3 failing input, evaluated: the stream holds only 2 bytes but
`body_size = 5`.  `ReadBody` performs a single `Read`, which drains the stream
to its end (2 of 5 bytes) and returns a nil error; `ReadBody` therefore
returns success with a zero-padded 5-byte buffer — the end of the stream
occurred before `body_size` bytes were read, yet no error distinct from a
fully successful read is reported (the source never loops or uses
`io.ReadFull`).  The `io.EOF` error only surfaces when the stream is already
empty at the moment of the call. -/
theorem c3_readbody_short_read :
    (c3client.ReadBody c3meta).map
        (fun r => (r.1, r.2.1, r.2.2.conn.readStream)) =
      some ([1, 2, 0, 0, 0], none, ([] : List Nat)) := by decide

/-! ## Claim C5: operations on a closed connection wrapper -/

def c5closedClient : Client :=
  { conn := { readStream := [9, 9], written := [], deadline := none }, closed := true }

/-- C5 counterexample: the claim as stated is false for `set_deadline`.
On a closed wrapper, `Client.SetDeadline` does not fail with
`ConnectionClosed`: it returns nil and arms the deadline on the underlying
stream (the source's `SetDeadline` has no closed-flag check and calls
`c.conn.SetDeadline` directly). -/
theorem c5_closed_cex :
    (c5closedClient.SetDeadline 7).1 = none ∧
      (c5closedClient.SetDeadline 7).2.conn ≠ c5closedClient.conn := by decide

/-- C5 (amended): on a wrapper whose closed flag is set, every operation of
the public contract except `set_deadline` fails immediately with
`ConnectionClosed` (for `read_body` wrapped as the cause of a
"could not read body" error) and leaves the underlying stream untouched;
`set_deadline` alone bypasses the closed check and reaches the underlying
stream. -/
theorem c5_closed_fail_fast (c : Client) (h : c.closed = true) :
    (∀ bs, c.Write bs = (0, some .connectionClosed, c)) ∧
    (∀ m, c.WriteMeta m = (0, some .connectionClosed, c)) ∧
    (∀ ep body, c.WriteData ep body = (0, some .connectionClosed, c)) ∧
    (∀ ep src, c.WriteDataReader ep src = (0, some .connectionClosed, c)) ∧
    (∀ n, c.Read n = ([], some .connectionClosed, c)) ∧
    c.ReadMeta = (.error .connectionClosed, c) ∧
    (∀ m : Metadata, 0 ≤ m.bodySize →
      c.ReadBody m = some (List.replicate m.bodySize.toNat 0,
        some (.wrap "could not read body" .connectionClosed), c)) ∧
    c.ReadData = some ((Metadata.zero, [], some .connectionClosed), c) := by
  refine ⟨fun bs => ?_, fun m => ?_, fun ep body => ?_, fun ep src => ?_,
    fun n => ?_, ?_, fun m hm => ?_, ?_⟩
  · simp [Client.Write, h]
  · simp [Client.WriteMeta, h]
  · simp [Client.WriteData, h]
  · simp [Client.WriteDataReader, h]
  · simp [Client.Read, h]
  · simp [Client.ReadMeta, Client.Read, h]
  · unfold Client.ReadBody
    rw [if_neg (not_lt.mpr hm)]
    simp [Client.Read, h]
  · simp [Client.ReadData, Client.ReadMeta, Client.Read, h]

def c5witClient : Client :=
  { conn := { readStream := [3], written := [], deadline := none }, closed := true }

/-- C5 witness: the amended fail-fast property at a concrete closed client. -/
theorem c5_closed_fail_fast_witness :
    c5witClient.Write [7] = (0, some .connectionClosed, c5witClient) ∧
      c5witClient.ReadMeta = (.error .connectionClosed, c5witClient) ∧
      c5witClient.Read 4 = ([], some .connectionClosed, c5witClient) := by
  have h := c5_closed_fail_fast c5witClient rfl
  exact ⟨h.1 [7], h.2.2.2.2.2.1, h.2.2.2.2.1 4⟩

/-! ## Claim C10: oversized body_size wire values and read_body panics -/

theorem getD_lt_of_forall (bs : List Nat) (h : ∀ b ∈ bs, b < 256) :
    ∀ i, bs.getD i 0 < 256 := by
  induction bs with
  | nil => intro i; simp [List.getD]
  | cons a t ih =>
    intro i
    cases i with
    | zero => exact h a (List.mem_cons_self a t)
    | succ j =>
      exact ih (fun b hb => h b (List.mem_cons_of_mem a hb)) j

theorem getUint64LE_lt (bs : List Nat) (h : ∀ b ∈ bs, b < 256) :
    getUint64LE bs < 18446744073709551616 := by
  have h0 := getD_lt_of_forall bs h 0
  have h1 := getD_lt_of_forall bs h 1
  have h2 := getD_lt_of_forall bs h 2
  have h3 := getD_lt_of_forall bs h 3
  have h4 := getD_lt_of_forall bs h 4
  have h5 := getD_lt_of_forall bs h 5
  have h6 := getD_lt_of_forall bs h 6
  have h7 := getD_lt_of_forall bs h 7
  unfold getUint64LE
  omega

/-- C10 (confirmed): (1) any full-size header whose `body_size` wire field
(little-endian at offsets 17..24) carries a value of at least `2^63` decodes
without error to a metadata with negative `bodySize`; (2) `ReadBody` with a
negative `bodySize` panics in `make([]byte, meta.BodySize)` (modelled as
`none`) instead of returning an error; (3) `ReadBody` is panic-free whenever
`bodySize ≥ 0`. -/
theorem c10_negative_bodysize :
    (∀ bs : List Nat, headerSize ≤ bs.length → (∀ b ∈ bs, b < 256) →
      9223372036854775808 ≤ getUint64LE (bs.drop 17) →
      ∃ m, DecodeMetadata bs = some m ∧ m.bodySize < 0) ∧
    (∀ (c : Client) (m : Metadata), m.bodySize < 0 → c.ReadBody m = none) ∧
    (∀ (c : Client) (m : Metadata), 0 ≤ m.bodySize → c.ReadBody m ≠ none) := by
  refine ⟨fun bs hlen hbytes hbig => ?_, fun c m hneg => ?_, fun c m hpos => ?_⟩
  · have hlt : getUint64LE (bs.drop 17) < 18446744073709551616 :=
      getUint64LE_lt _ (fun b hb => hbytes b (List.drop_subset 17 bs hb))
    unfold DecodeMetadata
    rw [if_neg (not_lt.mpr hlen)]
    refine ⟨_, rfl, ?_⟩
    simp only [toInt64]
    rw [if_neg (by omega)]
    omega
  · unfold Client.ReadBody
    rw [if_pos hneg]
  · unfold Client.ReadBody
    rw [if_neg (not_lt.mpr hpos)]
    rcases he : (c.Read m.bodySize.toNat).2.1 with _ | e
    · simp [he]
    · cases e <;> simp [he]

def bsC10 : List Nat := List.replicate 24 0 ++ 128 :: List.replicate 200 0

def c10client : Client := NewClientConn { readStream := [], written := [], deadline := none }

def mC10neg : Metadata := { bodySize := -1 }

def mC10pos : Metadata := { bodySize := 5 }

/-- C10 witness: a concrete 225-byte header whose body-size field is `2^63`
decodes to a negative `bodySize`; `ReadBody` at `bodySize = -1` panics and at
`bodySize = 5` does not. -/
theorem c10_negative_bodysize_witness :
    (∃ m, DecodeMetadata bsC10 = some m ∧ m.bodySize < 0) ∧
      c10client.ReadBody mC10neg = none ∧
      c10client.ReadBody mC10pos ≠ none :=
  ⟨c10_negative_bodysize.1 bsC10 (by decide) (by decide) (by decide),
    c10_negative_bodysize.2.1 c10client mC10neg (by decide),
    c10_negative_bodysize.2.2 c10client mC10pos (by decide)⟩

/-! ## Endpoint registry and server (src/unnamed/part_001)

A Go `map[string]T` is modelled as `Option (List (key × T))`: `none` is a
nil map (Go's zero value).  Reading a nil map yields the zero value; writing
to a nil map panics ("assignment to entry in nil map"), modelled as `none` of
the whole operation.  Endpoint names are Go strings, i.e. byte sequences,
modelled like the string fields of `Metadata` as `List Nat`. -/

abbrev GoKey : Type := List Nat

def GoMap (α : Type) : Type := Option (List (GoKey × α))

def assocSet {α : Type} : List (GoKey × α) → GoKey → α → List (GoKey × α)
  | [], k, v => [(k, v)]
  | (k₂, v₂) :: t, k, v =>
    if k₂ = k then (k, v) :: t else (k₂, v₂) :: assocSet t k v

def assocGet {α : Type} : List (GoKey × α) → GoKey → Option α
  | [], _ => none
  | (k₂, v₂) :: t, k => if k₂ = k then some v₂ else assocGet t k

/-- Model of `m[k] = v` on a Go map: panics (`none`) on a nil map, otherwise
insert-or-replace. -/
def GoMap.set {α : Type} : GoMap α → GoKey → α → Option (GoMap α)
  | none, _, _ => none
  | some l, k, v => some (some (assocSet l k v))

/-- Model of `v, ok := m[k]` on a Go map: a nil map reads as empty. -/
def GoMap.lookup {α : Type} : GoMap α → GoKey → Option α
  | none, _ => none
  | some l, k => assocGet l k

/-- Model of `RequestEndpoint` (src/unnamed/part_004): `(Metadata, io.Writer,
io.Reader) -> error`, modelled as a function from the metadata and the body
bytes to either an error or the bytes written to the response sink. -/
def RequestEndpointM : Type := Metadata → List Nat → Except GoErr (List Nat)

/-- Model of `StreamingEndpoint` (src/unnamed/part_004): `(Metadata, *Client) ->
error`; the handler may use the connection arbitrarily, so it is modelled as
a function returning its outcome and the client state it leaves behind. -/
def StreamingEndpointM : Type := Metadata → Client → Except GoErr Unit × Client

/-- Model of `Server` (src/unnamed/part_001 lines 41-55).  The shutdown channels and
wait group are concurrency primitives outside this sequential model. -/
structure Server where
  maxRetries : Int := 0
  maxTimeout : Int := 0
  protocol : String := ""
  uri : String := ""
  logB : Bool := false
  requestEndpoints : GoMap RequestEndpointM := none
  streamingEndpoints : GoMap StreamingEndpointM := none

/-- Model of `NewServer` (lines 25-39): validates the protocol and builds the default
server.  Note the source's struct literal initialises `requestEndpoints` to an
empty map but never initialises `streamingEndpoints`, which is therefore a nil
map. -/
def NewServer (protocol uri : String) : Option Server :=
  if protocol = "tcp" ∨ protocol = "unix" then
    some { maxRetries := 10, protocol := protocol, uri := uri,
           requestEndpoints := some [], streamingEndpoints := none }
  else none

/-- Model of `Server.AddRequestEndpoint` (lines 57-61): `s.requestEndpoints[name] =
endpoint`; `none` is the map-assignment panic. -/
def Server.AddRequestEndpoint (s : Server) (name : GoKey)
    (endpoint : RequestEndpointM) : Option Server :=
  (s.requestEndpoints.set name endpoint).map
    fun m => { s with requestEndpoints := m }

/-- Model of `Server.AddStreamingEndpoint` (lines 63-67): `s.streamingEndpoints[name]
= endpoint`; `none` is the map-assignment panic. -/
def Server.AddStreamingEndpoint (s : Server) (name : GoKey)
    (endpoint : StreamingEndpointM) : Option Server :=
  (s.streamingEndpoints.set name endpoint).map
    fun m => { s with streamingEndpoints := m }

/-! ## Claim C4: endpoint registration (code bug) -/

/-- C4 failing input, evaluated: on a server built by `NewServer`, registering
a request endpoint twice under one name succeeds with insert-or-replace (the
second handler wins on lookup), but registering any stream handler panics:
`NewServer` never initialises `streamingEndpoints`, so
`AddStreamingEndpoint` assigns into a nil map.  The repository's own chat
example (`example/chat/server/main.go`) performs exactly this sequence. -/
theorem c4_register (uri : String) (name : GoKey) (hs : StreamingEndpointM)
    (h₁ h₂ : RequestEndpointM) :
    ((NewServer "tcp" uri).bind fun s => s.AddStreamingEndpoint name hs) =
        none ∧
      (((NewServer "tcp" uri).bind fun s => s.AddRequestEndpoint name h₁).bind
            fun s => s.AddRequestEndpoint name h₂).map
          (fun s => s.requestEndpoints.lookup name) = some (some h₂) := by
  constructor
  · simp [NewServer, Server.AddStreamingEndpoint, GoMap.set]
  · simp [NewServer, Server.AddRequestEndpoint, GoMap.set, GoMap.lookup,
      assocSet, assocGet]

/-! ## Claim C6: accept-loop backoff (src/unnamed/part_001)

Timeout values are `time.Duration` nanoseconds: the initial delay
`10 * time.Millisecond` is `10000000`. -/

/-- Model of `defaultRetries` (lines 323-325). -/
def defaultRetries : Int × Int := (10000000, 0)

/-- Model of `incrementRetries` (lines 327-333 region): doubles the timeout and bumps
the retry counter. -/
def incrementRetries (timeout : Int) (tries : Int) : Int × Int :=
  (timeout * 2, tries + 1)

/-- One application of `incrementRetries` to a `(timeout, tries)` state. -/
def retryStep (st : Int × Int) : Int × Int :=
  incrementRetries st.1 st.2

/-- One transient accept error as handled by the `listenTCP` loop
(lines 139-151): `if tries > s.MaxRetries { return e }` — stop, surfacing the
error (`none`) — otherwise `timeout, tries = incrementRetries(timeout,
tries); time.Sleep(timeout)` and continue with the new state. -/
def transientAccept (maxRetries : Int) (st : Int × Int) : Option (Int × Int) :=
  if st.2 > maxRetries then none else some (retryStep st)

/-- Model of `k` consecutive transient accept errors processed by the loop: `none`
when the listener has stopped, `some st` when it is still accepting with
backoff state `st`. -/
def transientRun (maxRetries : Int) : Nat → Int × Int → Option (Int × Int)
  | 0, st => some st
  | Nat.succ k, st =>
    match transientAccept maxRetries st with
    | none => none
    | some st₂ => transientRun maxRetries k st₂

theorem transientRun_of_le (maxRetries : Int) :
    ∀ (k : Nat) (t n : Int), n + (k : Int) ≤ maxRetries + 1 →
      transientRun maxRetries k (t, n) = some (t * 2 ^ k, n + (k : Int)) := by
  intro k
  induction k with
  | zero => intro t n _; simp [transientRun]
  | succ j ih =>
    intro t n h
    have hj : ((j : Int) + 1 : Int) = ((Nat.succ j : Nat) : Int) := by push_cast; ring
    have hn : ¬ (n > maxRetries) := by omega
    simp only [transientRun, transientAccept, if_neg hn, retryStep, incrementRetries]
    rw [ih (t * 2) (n + 1) (by omega)]
    have h1 : t * 2 * 2 ^ j = t * 2 ^ (Nat.succ j) := by
      rw [Nat.succ_eq_add_one, pow_succ]; ring
    have h2 : n + 1 + (j : Int) = n + ((Nat.succ j : Nat) : Int) := by push_cast; ring
    rw [h1, h2]

/-- C6 (confirmed): (1) starting from the state produced by
`defaultRetries`, `k` applications of `incrementRetries` give a delay of
exactly `10ms * 2^k` (in nanoseconds) with a retry count of `k` — so the
delay slept after the k-th consecutive transient error is `10ms * 2^k`;
(2) whenever the consecutive-transient-error count carried in the loop state
exceeds `MaxRetries`, the next transient accept error stops the listener and
surfaces the error; (3) consequently, as long as the count stays within
`MaxRetries + 1`, a run of `k` consecutive transient errors leaves the loop
accepting with delay `10ms * 2^k`. -/
theorem c6_backoff :
    (∀ k : Nat, retryStep^[k] defaultRetries = (10000000 * 2 ^ k, (k : Int))) ∧
    (∀ (maxRetries : Int) (st : Int × Int), st.2 > maxRetries →
      transientAccept maxRetries st = none) ∧
    (∀ (maxRetries : Int) (k : Nat), (k : Int) ≤ maxRetries + 1 →
      transientRun maxRetries k defaultRetries =
        some (10000000 * 2 ^ k, (k : Int))) := by
  refine ⟨fun k => ?_, fun maxRetries st h => ?_, fun maxRetries k h => ?_⟩
  · induction k with
    | zero => simp [defaultRetries]
    | succ j ih =>
      rw [Function.iterate_succ_apply', ih]
      simp only [retryStep, incrementRetries, Prod.mk.injEq]
      constructor
      · rw [pow_succ]; ring
      · push_cast; ring
  · simp [transientAccept, h]
  · have hr := transientRun_of_le maxRetries k 10000000 0 (by omega)
    simpa [defaultRetries] using hr

/-- C6 witness: after 3 consecutive transient errors the delay is
`80ms = 10ms * 2^3`; with `MaxRetries = 10` a state whose error count is 11
stops on the next transient error; with `MaxRetries = 2`, 3 consecutive
errors still leave the loop running at an 80ms delay. -/
theorem c6_backoff_witness :
    retryStep^[3] defaultRetries = (80000000, 3) ∧
      transientAccept 10 (10000000, 11) = none ∧
      transientRun 2 3 defaultRetries = some (80000000, 3) :=
  ⟨(c6_backoff.1 3).trans (by norm_num),
    c6_backoff.2.1 10 (10000000, 11) (by norm_num),
    (c6_backoff.2.2 2 3 (by norm_num)).trans (by norm_num)⟩

/-! ## Connection dispatcher (src/unnamed/part_001 lines 200-301)

`handleConn` is a loop: read a header (`ReadMeta`), switch on the endpoint
type, dispatch, and loop again unless the dispatch returned an error.  The
model runs the loop on the deterministic `Client`/`Conn` state with explicit
fuel (the theorems always supply more fuel than the loop consumes) and
returns the number of `ReadMeta` (AwaitHeader) invocations performed; `none`
propagates a panic from `ReadBody`. -/

/-- Model of `Server.setDeadline` (lines 303-311): arms the idle deadline on the
wrapper when `MaxTimeout > 0`.  The absolute instant
(`time.Now().Add(MaxTimeout)`) is abstracted to the duration value. -/
def Server.setDeadlineM (s : Server) (client : Client) : Option GoErr × Client :=
  if s.maxTimeout > 0 then client.SetDeadline s.maxTimeout else (none, client)

/-- Model of `Server.handleStreamingConn` (lines 242-250): look the endpoint up in the
streaming registry; a miss is `errInvalidEndpoint`; a hit hands the client to
the handler and returns the handler's outcome. -/
def Server.handleStreamingConnM (s : Server) (meta : Metadata)
    (client : Client) : Except GoErr Unit × Client :=
  match s.streamingEndpoints.lookup meta.endpoint with
  | none => (.error .invalidEndpoint, client)
  | some endpoint => endpoint meta client

/-- Model of `Server.handleRequestConn` (lines 252-281): look the endpoint up in the
request registry (miss is `errInvalidEndpoint`); read the body (a panic in
`ReadBody` propagates as `none`); invoke the handler on the body; on success
write a framed response under the same endpoint name and re-arm the
deadline. -/
def Server.handleRequestConnM (s : Server) (meta : Metadata)
    (client : Client) : Option (Except GoErr Unit × Client) :=
  match s.requestEndpoints.lookup meta.endpoint with
  | none => some (.error .invalidEndpoint, client)
  | some endpoint =>
    match client.ReadBody meta with
    | none => none
    | some (_, some e, c₂) => some (.error e, c₂)
    | some (body, none, c₂) =>
      match endpoint meta body with
      | .error e => some (.error e, c₂)
      | .ok resp =>
        let w := c₂.WriteData meta.endpoint resp
        match w.2.1 with
        | some e => some (.error e, w.2.2)
        | none =>
          let d := s.setDeadlineM w.2.2
          match d.1 with
          | some e => some (.error e, d.2)
          | none => some (.ok (), d.2)

/-- The `for` loop of `handleConn` (lines 219-239).  Returns the number of
`ReadMeta` calls performed.  A `ReadMeta` error, a dispatch error, or an
unknown endpoint type terminates the loop; otherwise it loops back to read
the next header. -/
def handleConnLoop : Nat → Server → Client → Nat → Option Nat
  | 0, _, _, k => some k
  | Nat.succ fuel, s, c, k =>
    match c.ReadMeta with
    | (.error _, _) => some (k + 1)
    | (.ok m, c₂) =>
      match m.endpointType with
      | 0 =>
        match s.handleRequestConnM m c₂ with
        | none => none
        | some (.error _, _) => some (k + 1)
        | some (.ok _, c₃) => handleConnLoop fuel s c₃ (k + 1)
      | 1 =>
        match s.handleStreamingConnM m c₂ with
        | (.error _, _) => some (k + 1)
        | (.ok _, c₃) => handleConnLoop fuel s c₃ (k + 1)
      | _ => some (k + 1)

/-- Model of `Server.handleConn` (lines 200-240): wrap the accepted conn in a client,
arm the initial deadline, and run the dispatch loop. -/
def Server.handleConnM (s : Server) (conn : Conn) (fuel : Nat) : Option Nat :=
  handleConnLoop fuel s (s.setDeadlineM (NewClientConn conn)).2 0

/-! ## Claim C2: stream handler return and the dispatcher loop -/

def epS : GoKey := [115]

def streamOkHandler : StreamingEndpointM := fun _ c => (.ok (), c)

def mC2 : Metadata := { endpointType := 1, endpoint := epS }

def sC2cex : Server :=
  { requestEndpoints := some [], streamingEndpoints := some [(epS, streamOkHandler)] }

def connC2 : Conn :=
  { readStream := mC2.Encode ++ mC2.Encode, written := [], deadline := none }

/-- C2 counterexample: the claim as stated is false.  The connection carries
two back-to-back Stream headers for a registered endpoint whose handler
returns success.  If a stream handler's return always terminated the
connection's servicing, exactly one header read would occur; instead the
dispatcher performs three `ReadMeta` calls: it reads another header after the
first handler returns success, dispatches it too, and only stops at the third
read (end of stream).  In the source, `handleConn` returns after
`handleStreamingConn` only under `err != nil`. -/
theorem c2_stream_return_cex : Server.handleConnM sC2cex connC2 5 = some 3 := by
  decide

/-- C2 (amended): how the dispatcher treats a stream handler's return.  When
a header routes to a registered stream endpoint, the handler's outcome
decides the loop: an error return terminates the connection's servicing with
no further header read; a success return resumes the loop, which reads
another header on the same connection. -/
theorem c2_stream_dispatch (fuel : Nat) (s : Server) (c c₂ : Client)
    (k : Nat) (m : Metadata) (eh : StreamingEndpointM)
    (h₁ : c.ReadMeta = (.ok m, c₂)) (h₂ : m.endpointType = 1)
    (h₃ : s.streamingEndpoints.lookup m.endpoint = some eh) :
    handleConnLoop (fuel + 1) s c k =
      match eh m c₂ with
      | (.error _, _) => some (k + 1)
      | (.ok _, c₃) => handleConnLoop fuel s c₃ (k + 1) := by
  simp only [handleConnLoop, h₁, h₂, Server.handleStreamingConnM, h₃]

def streamErrHandler : StreamingEndpointM := fun _ c => (.error .eof, c)

def sC2wit : Server :=
  { requestEndpoints := some [], streamingEndpoints := some [(epS, streamErrHandler)] }

def cC2wit : Client :=
  NewClientConn { readStream := mC2.Encode ++ mC2.Encode, written := [], deadline := none }

def cC2witAfter : Client :=
  { conn := { readStream := mC2.Encode, written := [], deadline := none } }

/-- C2 witness: with a registered stream handler that returns an error, the
dispatcher stops after a single header read even though a second header is
waiting on the connection; the amended theorem applied at this concrete
input. -/
theorem c2_stream_dispatch_witness : handleConnLoop 5 sC2wit cC2wit 0 = some 1 := by
  have h := c2_stream_dispatch 4 sC2wit cC2wit cC2witAfter 0 mC2 streamErrHandler
    (by rfl) (by rfl) (by rfl)
  exact h.trans (by rfl)
